import Mathlib

/-!
Verification of the `AlertObjectList` model of the Go SDK
(`go/models/alert_object_list.go`).

The source file declares a single struct with six fields and
`encoding/json` struct tags.  Serialization and deserialization of the
struct are performed by Go's `encoding/json` package, driven entirely by
those tags, so we embed the struct together with the `encoding/json`
semantics that the tags induce:

* a JSON document is modelled abstractly as a `Json` value; an object is
  an ordered list of key/value pairs (duplicate keys are processed in
  order, so the last occurrence wins, as in Go);
* `marshalAlertObjectList` emits the fields in struct declaration order,
  honouring `omitempty` (a field tagged `omitempty` is dropped when its
  value is the empty string, respectively a nil or zero-length slice);
* `unmarshalAlertObjectList` starts from the zero value of the struct and
  folds the object's pairs, matching each key against the struct tags
  (exactly, with Go's case-insensitive fold fallback, which on these
  tags is ASCII case folding plus the two Unicode simple-fold cases
  U+017F long s and U+212A Kelvin sign), ignoring unknown
  keys, treating JSON `null` as a no-op on string fields and as nil on
  the slice field, and failing on a type mismatch.  (Go records the
  first type error and keeps decoding the remaining fields before
  returning it; we short-circuit instead, which agrees on whether the
  call fails and on the result of every successful call.)

A Go `[]string` distinguishes the nil slice from a non-nil empty slice,
so the `Objects` field is embedded as `Option (List String)`: `none` is
the nil slice and `some l` a non-nil slice with elements `l`.
-/

/-- A JSON value: string, number, array, object, boolean or null.
Objects are ordered lists of key/value pairs. -/
inductive Json where
  | str : String → Json
  | num : Int → Json
  | arr : List Json → Json
  | obj : List (String × Json) → Json
  | bool : Bool → Json
  | null : Json

/-- The `AlertObjectList` struct of `go/models/alert_object_list.go`.
Field names and order follow the Go struct; `Objects` is a Go
`[]string`, embedded as `Option (List String)` (`none` = nil slice). -/
structure AlertObjectList where
  Name : String
  Objects : Option (List String)
  Source : String
  TenantRef : String
  URL : String
  UUID : String
deriving DecidableEq

/-- The Go zero value of `AlertObjectList`: empty strings and a nil slice. -/
def zeroAlertObjectList : AlertObjectList :=
  { Name := "", Objects := none, Source := "", TenantRef := "", URL := "", UUID := "" }

/-- The elements of the `Objects` slice (a nil slice has no elements). -/
def AlertObjectList.objectsElems (a : AlertObjectList) : List String :=
  a.Objects.getD []

/-- One character of `encoding/json`'s fold normalisation, specialised
to comparison against lower-case ASCII tags: an ASCII upper-case letter
folds to its lower-case form, and the two non-ASCII runes whose Unicode
simple-fold orbit contains an ASCII letter fold to that letter —
U+017F (long s) to `s` and U+212A (Kelvin sign) to `k`.  Every other
rune folds only with its own case pair, so it is left unchanged. -/
def goFoldChar (c : Char) : Char :=
  if 'A' ≤ c ∧ c ≤ 'Z' then Char.ofNat (c.toNat + 32)
  else if c.toNat = 0x17F then 's'
  else if c.toNat = 0x212A then 'k'
  else c

/-- Fold normalisation of a string, rune by rune. -/
def goFoldStr (s : String) : String :=
  String.mk (s.data.map goFoldChar)

/-- Key matching of `encoding/json`: an incoming key matches a struct tag
if it is equal to it, or if it fold-matches it (the tags are lower-case
ASCII and pairwise fold-distinct, so checking the tags in struct order
agrees with Go's exact-match-first rule). -/
def keyFold (k tag : String) : Bool :=
  k == tag || goFoldStr k == tag

/-- `json.Marshal` applied to an `AlertObjectList`: fields are emitted in
struct declaration order under their tag names; `objects`, `tenant_ref`,
`url` and `uuid` are tagged `omitempty` and are dropped when empty
(for the slice: nil or zero length), while `name` and `source` are
always emitted. -/
def marshalAlertObjectList (a : AlertObjectList) : List (String × Json) :=
  [("name", Json.str a.Name)]
    ++ (if a.objectsElems = [] then []
        else [("objects", Json.arr (a.objectsElems.map Json.str))])
    ++ [("source", Json.str a.Source)]
    ++ (if a.TenantRef = "" then [] else [("tenant_ref", Json.str a.TenantRef)])
    ++ (if a.URL = "" then [] else [("url", Json.str a.URL)])
    ++ (if a.UUID = "" then [] else [("uuid", Json.str a.UUID)])

/-- Decoding a JSON value into a Go `string`: a JSON string decodes to
itself, JSON `null` leaves the zero value `""` in place, anything else
is a type error. -/
def decodeGoString : Json → Except String String
  | Json.str s => .ok s
  | Json.null => .ok ""
  | _ => .error "json: cannot unmarshal value into Go value of type string"

/-- Decoding a JSON array's elements into a Go `[]string`. -/
def decodeGoStringList : List Json → Except String (List String)
  | [] => .ok []
  | e :: es => do
      let s ← decodeGoString e
      let rest ← decodeGoStringList es
      .ok (s :: rest)

/-- One step of `json.Unmarshal` into an `AlertObjectList`: decode a
single object member into the struct.  The key is matched against the
six struct tags; a key matching no tag is ignored.  A JSON string sets a
string field, `null` is a no-op on a string field and sets the slice
field to nil, an array of strings sets the slice field; any other value
for a known key is a type error. -/
def setField (a : AlertObjectList) (k : String) (v : Json) : Except String AlertObjectList :=
  if keyFold k "name" then
    match v with
    | Json.str s => .ok { a with Name := s }
    | Json.null => .ok a
    | _ => .error "json: cannot unmarshal value into Go struct field AlertObjectList.name of type string"
  else if keyFold k "objects" then
    match v with
    | Json.arr es => (decodeGoStringList es).map (fun l => { a with Objects := some l })
    | Json.null => .ok { a with Objects := none }
    | _ => .error "json: cannot unmarshal value into Go struct field AlertObjectList.objects of type []string"
  else if keyFold k "source" then
    match v with
    | Json.str s => .ok { a with Source := s }
    | Json.null => .ok a
    | _ => .error "json: cannot unmarshal value into Go struct field AlertObjectList.source of type string"
  else if keyFold k "tenant_ref" then
    match v with
    | Json.str s => .ok { a with TenantRef := s }
    | Json.null => .ok a
    | _ => .error "json: cannot unmarshal value into Go struct field AlertObjectList.tenant_ref of type string"
  else if keyFold k "url" then
    match v with
    | Json.str s => .ok { a with URL := s }
    | Json.null => .ok a
    | _ => .error "json: cannot unmarshal value into Go struct field AlertObjectList.url of type string"
  else if keyFold k "uuid" then
    match v with
    | Json.str s => .ok { a with UUID := s }
    | Json.null => .ok a
    | _ => .error "json: cannot unmarshal value into Go struct field AlertObjectList.uuid of type string"
  else
    .ok a

/-- Fold the members of a JSON object into the struct, in order. -/
def unmarshalFields (a : AlertObjectList) : List (String × Json) → Except String AlertObjectList
  | [] => .ok a
  | (k, v) :: rest =>
      match setField a k v with
      | .ok b => unmarshalFields b rest
      | .error e => .error e

/-- `json.Unmarshal` into an `AlertObjectList`: the top-level value must
be a JSON object (or `null`, which leaves the zero value untouched);
its members are decoded in order starting from the zero value. -/
def unmarshalAlertObjectList : Json → Except String AlertObjectList
  | Json.obj kvs => unmarshalFields zeroAlertObjectList kvs
  | Json.null => .ok zeroAlertObjectList
  | _ => .error "json: cannot unmarshal value into Go value of type models.AlertObjectList"

/-- A key is known when it matches one of the six struct tags. -/
def isKnownKey (k : String) : Bool :=
  keyFold k "name" || keyFold k "objects" || keyFold k "source" ||
    keyFold k "tenant_ref" || keyFold k "url" || keyFold k "uuid"

/-! ## Evaluation lemmas -/

theorem decodeGoStringList_map_str (l : List String) :
    decodeGoStringList (l.map Json.str) = .ok l := by
  induction l with
  | nil => rfl
  | cons x xs ih =>
    simp only [List.map_cons, decodeGoStringList, decodeGoString, ih]
    rfl

theorem setField_name (a : AlertObjectList) (s : String) :
    setField a "name" (Json.str s) = .ok { a with Name := s } := rfl

theorem setField_objects (a : AlertObjectList) (l : List String) :
    setField a "objects" (Json.arr (l.map Json.str)) = .ok { a with Objects := some l } := by
  show (decodeGoStringList (l.map Json.str)).map _ = _
  rw [decodeGoStringList_map_str]
  rfl

theorem setField_source (a : AlertObjectList) (s : String) :
    setField a "source" (Json.str s) = .ok { a with Source := s } := rfl

theorem setField_tenant_ref (a : AlertObjectList) (s : String) :
    setField a "tenant_ref" (Json.str s) = .ok { a with TenantRef := s } := rfl

theorem setField_url (a : AlertObjectList) (s : String) :
    setField a "url" (Json.str s) = .ok { a with URL := s } := rfl

theorem setField_uuid (a : AlertObjectList) (s : String) :
    setField a "uuid" (Json.str s) = .ok { a with UUID := s } := rfl

theorem setField_unknown (a : AlertObjectList) (k : String) (v : Json)
    (h : isKnownKey k = false) : setField a k v = .ok a := by
  unfold isKnownKey at h
  simp only [Bool.or_eq_false_iff] at h
  obtain ⟨⟨⟨⟨⟨h1, h2⟩, h3⟩, h4⟩, h5⟩, h6⟩ := h
  unfold setField
  simp [h1, h2, h3, h4, h5, h6]

theorem unmarshalFields_append (a : AlertObjectList) (l1 l2 : List (String × Json)) :
    unmarshalFields a (l1 ++ l2) =
      match unmarshalFields a l1 with
      | .ok b => unmarshalFields b l2
      | .error e => .error e := by
  induction l1 generalizing a with
  | nil => simp [unmarshalFields]
  | cons p rest ih =>
    obtain ⟨k, v⟩ := p
    simp only [List.cons_append, unmarshalFields]
    cases setField a k v with
    | ok b => exact ih b
    | error e => rfl

theorem setField_objects_cons (a : AlertObjectList) (x : String) (xs : List String) :
    setField a "objects" (Json.arr (Json.str x :: List.map Json.str xs)) =
      .ok { a with Objects := some (x :: xs) } := by
  have h := setField_objects a (x :: xs)
  simpa using h

/-- Serialize-then-deserialize, characterised for every instance: all
fields come back unchanged except that an empty `Objects` slice (nil or
zero length) comes back as the nil slice. -/
theorem roundtrip_chars (a : AlertObjectList) :
    unmarshalAlertObjectList (Json.obj (marshalAlertObjectList a)) =
      .ok { a with Objects := if a.objectsElems = [] then none else a.Objects } := by
  obtain ⟨n, os, s, t, u, i⟩ := a
  rcases os with _ | ⟨_ | ⟨x, xs⟩⟩ <;>
  by_cases ht : t = "" <;> by_cases hu : u = "" <;> by_cases hi : i = "" <;>
    simp [marshalAlertObjectList, AlertObjectList.objectsElems, unmarshalAlertObjectList,
      unmarshalFields, setField_name, setField_objects_cons, setField_source,
      setField_tenant_ref, setField_url, setField_uuid, zeroAlertObjectList, ht, hu, hi]


theorem unmarshalFields_cons (a : AlertObjectList) (k : String) (v : Json)
    (rest : List (String × Json)) :
    unmarshalFields a ((k, v) :: rest) =
      match setField a k v with
      | .ok b => unmarshalFields b rest
      | .error e => .error e := rfl

theorem setField_objects_shape (a : AlertObjectList) (es : List Json) (b : AlertObjectList)
    (h : (decodeGoStringList es).map (fun l => { a with Objects := some l }) = .ok b) :
    ∃ l, b = { a with Objects := some l } := by
  cases hd : decodeGoStringList es <;> rw [hd] at h <;> simp [Except.map] at h
  exact ⟨_, h.symm⟩

/-- A decoding step whose key does not match the `name` (resp. `source`)
tag leaves the `Name` (resp. `Source`) field unchanged. -/
theorem setField_preserves (a : AlertObjectList) (k : String) (v : Json) (b : AlertObjectList)
    (hset : setField a k v = .ok b) :
    (keyFold k "name" = false → b.Name = a.Name) ∧
    (keyFold k "source" = false → b.Source = a.Source) := by
  unfold setField at hset
  split_ifs at hset <;> cases v <;>
    first
      | (obtain ⟨l, rfl⟩ := setField_objects_shape _ _ _ hset; simp_all)
      | (cases hset <;> simp_all)

/-- Decoding a document none of whose keys matches the `name` (resp.
`source`) tag leaves the `Name` (resp. `Source`) field at its starting
value. -/
theorem unmarshalFields_preserves_missing (kvs : List (String × Json)) (a b : AlertObjectList)
    (h : unmarshalFields a kvs = .ok b) :
    ((∀ p ∈ kvs, keyFold p.1 "name" = false) → b.Name = a.Name) ∧
    ((∀ p ∈ kvs, keyFold p.1 "source" = false) → b.Source = a.Source) := by
  induction kvs generalizing a with
  | nil =>
    cases h
    exact ⟨fun _ => rfl, fun _ => rfl⟩
  | cons p rest ih =>
    obtain ⟨k, v⟩ := p
    rw [unmarshalFields_cons] at h
    cases hs : setField a k v with
    | error e => rw [hs] at h; cases h
    | ok c =>
      rw [hs] at h
      have hrest := ih c h
      have hstep := setField_preserves a k v c hs
      constructor
      · intro hall
        rw [hrest.1 (fun q hq => hall q (List.mem_cons_of_mem _ hq))]
        exact hstep.1 (hall (k, v) (List.mem_cons_self _ _))
      · intro hall
        rw [hrest.2 (fun q hq => hall q (List.mem_cons_of_mem _ hq))]
        exact hstep.2 (hall (k, v) (List.mem_cons_self _ _))

/-- Dropping the pairs whose key matches no struct tag does not change
the result of decoding. -/
theorem unmarshalFields_filter_known (kvs : List (String × Json)) (a : AlertObjectList) :
    unmarshalFields a (kvs.filter (fun p => isKnownKey p.1)) = unmarshalFields a kvs := by
  induction kvs generalizing a with
  | nil => rfl
  | cons p rest ih =>
    obtain ⟨k, v⟩ := p
    by_cases hk : isKnownKey k
    · rw [List.filter_cons_of_pos (by simpa using hk), unmarshalFields_cons,
        unmarshalFields_cons]
      cases setField a k v with
      | ok b => exact ih b
      | error e => rfl
    · rw [List.filter_cons_of_neg (by simpa using hk), unmarshalFields_cons,
        setField_unknown a k v (by simpa using hk)]
      exact ih a

/-! ## Claims -/

/-- C1 (counterexample): deserializing a document missing both required
keys does not fail: the document with only an `objects` key deserializes
successfully, with `Name` and `Source` left at the empty string.  There
is no MissingRequiredField error anywhere in the code. -/
theorem deserialize_missing_required_succeeds :
    unmarshalAlertObjectList (Json.obj [("objects", Json.arr [Json.str "POOL"])]) =
      .ok { Name := "", Objects := some ["POOL"], Source := "",
            TenantRef := "", URL := "", UUID := "" } := rfl

/-- C1 (amended): deserializing a document in which no key matches
`name` or `source` succeeds whenever decoding succeeds at all, and
leaves the corresponding field at its empty default. -/
theorem deserialize_missing_required_defaults (kvs : List (String × Json))
    (r : AlertObjectList) (h : unmarshalAlertObjectList (Json.obj kvs) = .ok r) :
    ((∀ p ∈ kvs, keyFold p.1 "name" = false) → r.Name = "") ∧
    ((∀ p ∈ kvs, keyFold p.1 "source" = false) → r.Source = "") := by
  have hp := unmarshalFields_preserves_missing kvs zeroAlertObjectList r h
  exact ⟨fun hall => hp.1 hall, fun hall => hp.2 hall⟩

/-- C1 witness. -/
theorem deserialize_missing_required_defaults_witness :
    unmarshalAlertObjectList (Json.obj [("objects", Json.arr [Json.str "POOL"])]) =
      .ok { Name := "", Objects := some ["POOL"], Source := "",
            TenantRef := "", URL := "", UUID := "" } ∧
    ({ Name := "", Objects := some ["POOL"], Source := "",
       TenantRef := "", URL := "", UUID := "" } : AlertObjectList).Name = "" ∧
    ({ Name := "", Objects := some ["POOL"], Source := "",
       TenantRef := "", URL := "", UUID := "" } : AlertObjectList).Source = "" := by
  have h := deserialize_missing_required_defaults
    [("objects", Json.arr [Json.str "POOL"])]
    { Name := "", Objects := some ["POOL"], Source := "",
      TenantRef := "", URL := "", UUID := "" } rfl
  exact ⟨rfl, h.1 (by decide), h.2 (by decide)⟩

/-- C2 (counterexample): for the instance with `Name` and `Source` set
and `Objects` the non-nil empty slice, serialize-then-deserialize does
not return the original instance (the empty slice comes back nil). -/
theorem roundtrip_empty_objects_not_id :
    unmarshalAlertObjectList (Json.obj (marshalAlertObjectList
      { Name := "a", Objects := some [], Source := "METRICS",
        TenantRef := "", URL := "", UUID := "" })) ≠
    .ok { Name := "a", Objects := some [], Source := "METRICS",
          TenantRef := "", URL := "", UUID := "" } := by
  intro h
  rw [show unmarshalAlertObjectList (Json.obj (marshalAlertObjectList
      { Name := "a", Objects := some [], Source := "METRICS",
        TenantRef := "", URL := "", UUID := "" })) =
      .ok { Name := "a", Objects := none, Source := "METRICS",
            TenantRef := "", URL := "", UUID := "" } from rfl] at h
  exact absurd (Except.ok.inj h) (by simp)

/-- C2 (amended): for every instance with `Name` and `Source` set whose
`Objects` is not the non-nil empty slice, serializing and then
deserializing returns an instance equal to the original in every
field. -/
theorem roundtrip_preserves_instance (a : AlertObjectList)
    (_hn : a.Name ≠ "") (_hs : a.Source ≠ "") (ho : a.Objects ≠ some []) :
    unmarshalAlertObjectList (Json.obj (marshalAlertObjectList a)) = .ok a := by
  rw [roundtrip_chars]
  rcases hob : a.Objects with _ | l
  · have he : a.objectsElems = [] := by simp [AlertObjectList.objectsElems, hob]
    rw [if_pos he, ← hob]
  · rcases l with _ | ⟨x, xs⟩
    · exact absurd hob ho
    · have he : a.objectsElems = x :: xs := by simp [AlertObjectList.objectsElems, hob]
      rw [if_neg (by simp [he]), ← hob]

/-- C2 witness. -/
theorem roundtrip_preserves_instance_witness :
    unmarshalAlertObjectList (Json.obj (marshalAlertObjectList
      { Name := "alert1", Objects := some ["POOL"], Source := "METRICS",
        TenantRef := "t", URL := "u", UUID := "x" })) =
    .ok { Name := "alert1", Objects := some ["POOL"], Source := "METRICS",
          TenantRef := "t", URL := "u", UUID := "x" } :=
  roundtrip_preserves_instance _ (by decide) (by decide) (by decide)

/-- C3: serializing an instance whose `Objects`, `TenantRef`, `URL` and
`UUID` are empty produces a document whose keys are exactly `name` and
`source`; for every instance, `name` and `source` appear among the
keys, even when their values are empty strings. -/
theorem serialize_omits_empty_optionals (a : AlertObjectList) :
    (a.objectsElems = [] ∧ a.TenantRef = "" ∧ a.URL = "" ∧ a.UUID = "" →
      (marshalAlertObjectList a).map Prod.fst = ["name", "source"]) ∧
    "name" ∈ (marshalAlertObjectList a).map Prod.fst ∧
    "source" ∈ (marshalAlertObjectList a).map Prod.fst := by
  refine ⟨fun ⟨h1, h2, h3, h4⟩ => ?_, ?_, ?_⟩
  · simp [marshalAlertObjectList, h1, h2, h3, h4]
  · simp [marshalAlertObjectList]
  · simp [marshalAlertObjectList]

/-- C3 witness. -/
theorem serialize_omits_empty_optionals_witness :
    (marshalAlertObjectList
      { Name := "", Objects := none, Source := "",
        TenantRef := "", URL := "", UUID := "" }).map Prod.fst = ["name", "source"] :=
  (serialize_omits_empty_optionals _).1 (by decide)

/-- C4: every key a serialized document can contain is one of the six
tag names, and deserialization maps each of the six keys to its
respective field. -/
theorem wire_keys_and_field_mapping (a : AlertObjectList) (k s : String) (l : List String) :
    (k ∈ (marshalAlertObjectList a).map Prod.fst →
      k ∈ ["name", "objects", "source", "tenant_ref", "url", "uuid"]) ∧
    setField a "name" (Json.str s) = .ok { a with Name := s } ∧
    setField a "objects" (Json.arr (l.map Json.str)) = .ok { a with Objects := some l } ∧
    setField a "source" (Json.str s) = .ok { a with Source := s } ∧
    setField a "tenant_ref" (Json.str s) = .ok { a with TenantRef := s } ∧
    setField a "url" (Json.str s) = .ok { a with URL := s } ∧
    setField a "uuid" (Json.str s) = .ok { a with UUID := s } := by
  refine ⟨fun hk => ?_, setField_name a s, setField_objects a l, setField_source a s,
    setField_tenant_ref a s, setField_url a s, setField_uuid a s⟩
  simp only [marshalAlertObjectList, List.map_append, List.mem_append] at hk
  split_ifs at hk <;> simp_all <;> tauto

/-- C4 witness. -/
theorem wire_keys_and_field_mapping_witness :
    "name" ∈ (marshalAlertObjectList zeroAlertObjectList).map Prod.fst ∧
    "name" ∈ ["name", "objects", "source", "tenant_ref", "url", "uuid"] :=
  ⟨by decide,
   (wire_keys_and_field_mapping zeroAlertObjectList "name" "" []).1 (by decide)⟩

/-- C5: keys matching no struct tag are ignored by deserialization, so
a document with unknown extra keys decodes exactly as the document
without them; in particular the example with an `extra` key succeeds
and equals the decoding of the document without `extra`. -/
theorem unknown_fields_ignored (a : AlertObjectList) (kvs : List (String × Json)) :
    unmarshalFields a (kvs.filter (fun p => isKnownKey p.1)) = unmarshalFields a kvs ∧
    unmarshalAlertObjectList (Json.obj
      [("name", Json.str "a"), ("source", Json.str "METRICS"), ("extra", Json.num 1)]) =
      unmarshalAlertObjectList (Json.obj
        [("name", Json.str "a"), ("source", Json.str "METRICS")]) ∧
    unmarshalAlertObjectList (Json.obj
      [("name", Json.str "a"), ("source", Json.str "METRICS"), ("extra", Json.num 1)]) =
      .ok { Name := "a", Objects := none, Source := "METRICS",
            TenantRef := "", URL := "", UUID := "" } :=
  ⟨unmarshalFields_filter_known kvs a, rfl, rfl⟩

/-- C6: neither direction validates membership of `Source` or of the
`Objects` entries in their enumerations: every instance, whatever the
strings, serializes and deserializes with no rejection and with all
values passed through; in particular an instance with `Objects`
containing `NOT_A_REAL_TYPE` and a bogus `Source` round-trips
unchanged. -/
theorem enum_passthrough (a : AlertObjectList) :
    (∃ b, unmarshalAlertObjectList (Json.obj (marshalAlertObjectList a)) = .ok b ∧
      b.Name = a.Name ∧ b.Source = a.Source ∧ b.objectsElems = a.objectsElems ∧
      b.TenantRef = a.TenantRef ∧ b.URL = a.URL ∧ b.UUID = a.UUID) ∧
    unmarshalAlertObjectList (Json.obj (marshalAlertObjectList
      { Name := "a1", Objects := some ["NOT_A_REAL_TYPE"], Source := "NOT_A_SOURCE",
        TenantRef := "", URL := "", UUID := "" })) =
      .ok { Name := "a1", Objects := some ["NOT_A_REAL_TYPE"], Source := "NOT_A_SOURCE",
            TenantRef := "", URL := "", UUID := "" } := by
  refine ⟨⟨_, roundtrip_chars a, rfl, rfl, ?_, rfl, rfl, rfl⟩, rfl⟩
  by_cases h : a.Objects.getD [] = [] <;> simp [AlertObjectList.objectsElems, h]

/-- C7: the example document deserializes to the expected record, with
`TenantRef`, `URL` and `UUID` at their empty defaults. -/
theorem example_document_deserializes :
    unmarshalAlertObjectList (Json.obj
      [("name", Json.str "alert1"), ("source", Json.str "EVENT_LOGS"),
       ("objects", Json.arr [Json.str "VIRTUALSERVICE", Json.str "POOL"])]) =
      .ok { Name := "alert1", Objects := some ["VIRTUALSERVICE", "POOL"],
            Source := "EVENT_LOGS", TenantRef := zeroAlertObjectList.TenantRef,
            URL := zeroAlertObjectList.URL, UUID := zeroAlertObjectList.UUID } := rfl

/-- C8 (counterexample): a `url` key in an incoming document is not
ignored: it sets the `URL` field away from its zero value. -/
theorem url_key_sets_field :
    unmarshalAlertObjectList (Json.obj
      [("name", Json.str "a"), ("source", Json.str "METRICS"), ("url", Json.str "u")]) =
      .ok { Name := "a", Objects := none, Source := "METRICS",
            TenantRef := "", URL := "u", UUID := "" } ∧
    ({ Name := "a", Objects := none, Source := "METRICS",
       TenantRef := "", URL := "u", UUID := "" } : AlertObjectList).URL ≠
      zeroAlertObjectList.URL :=
  ⟨rfl, by decide⟩

/-- C8 (amended): the `Read Only` marking on `URL` is not enforced: a
`url` key in an incoming document sets the field, and once set the
field is round-tripped unchanged by serialize-then-deserialize. -/
theorem url_input_and_roundtrip (a : AlertObjectList) (s : String) :
    setField a "url" (Json.str s) = .ok { a with URL := s } ∧
    ∃ b, unmarshalAlertObjectList (Json.obj (marshalAlertObjectList a)) = .ok b ∧
      b.URL = a.URL :=
  ⟨setField_url a s, ⟨_, roundtrip_chars a, rfl⟩⟩

/-- C9: serializing an instance whose `Objects` is the empty (non-nil,
zero-length) slice omits the `objects` key, and serialize-then-
deserialize returns the instance with `Objects` at the absent/default
value `none`, which differs from the empty slice. -/
theorem empty_objects_collapses_to_absent (a : AlertObjectList)
    (h : a.Objects = some []) :
    "objects" ∉ (marshalAlertObjectList a).map Prod.fst ∧
    unmarshalAlertObjectList (Json.obj (marshalAlertObjectList a)) =
      .ok { a with Objects := none } ∧
    (none : Option (List String)) ≠ some [] := by
  have he : a.objectsElems = [] := by simp [AlertObjectList.objectsElems, h]
  refine ⟨?_, ?_, by simp⟩
  · simp [marshalAlertObjectList, he]
  · rw [roundtrip_chars, if_pos he]

/-- C9 witness. -/
theorem empty_objects_collapses_to_absent_witness :
    "objects" ∉ (marshalAlertObjectList
      { Name := "a", Objects := some [], Source := "METRICS",
        TenantRef := "", URL := "", UUID := "" }).map Prod.fst ∧
    unmarshalAlertObjectList (Json.obj (marshalAlertObjectList
      { Name := "a", Objects := some [], Source := "METRICS",
        TenantRef := "", URL := "", UUID := "" })) =
      .ok { Name := "a", Objects := none, Source := "METRICS",
            TenantRef := "", URL := "", UUID := "" } := by
  have h := empty_objects_collapses_to_absent
    { Name := "a", Objects := some [], Source := "METRICS",
      TenantRef := "", URL := "", UUID := "" } rfl
  exact ⟨h.1, h.2.1⟩

/-- C10: serialization is deterministic: two instances equal field for
field serialize to identical documents (and it is total: the function
returns a document for every instance, with no error case). -/
theorem marshal_deterministic (a b : AlertObjectList)
    (h : a.Name = b.Name ∧ a.Objects = b.Objects ∧ a.Source = b.Source ∧
         a.TenantRef = b.TenantRef ∧ a.URL = b.URL ∧ a.UUID = b.UUID) :
    marshalAlertObjectList a = marshalAlertObjectList b := by
  obtain ⟨h1, h2, h3, h4, h5, h6⟩ := h
  obtain ⟨n, os, s, t, u, i⟩ := a
  obtain ⟨n', os', s', t', u', i'⟩ := b
  simp_all

/-- C10 witness. -/
theorem marshal_deterministic_witness :
    marshalAlertObjectList
      { Name := "n", Objects := some ["POOL"], Source := "s",
        TenantRef := "", URL := "", UUID := "" } =
    marshalAlertObjectList
      { Name := "n", Objects := some ["POOL"], Source := "s",
        TenantRef := "", URL := "", UUID := "" } :=
  marshal_deterministic _ _ (by decide)
